import Mathlib

/-!
A shallow embedding of the token subsystem of `anaconda-anon-usage`
(modules `anaconda_anon_usage/utils.py`, `anaconda_anon_usage/tokens.py`,
`anaconda_anon_usage/api_key.py`).

Filesystem contents, environment variables, the machine node id, the
`os.urandom` stream and the results of Python-stdlib decoding steps
(`json.loads`, `base64.b64decode` of externally supplied blobs) are
modelled as components of an explicit state `Sys`; the repository's own
logic is translated function by function.  Python exceptions that escape
a function are modelled with `Except`; exceptions that the source
catches are modelled by the `Option`/status values the source converts
them to.
-/

/-! ### Python string helpers

Faithful models of the Python `str` operations the source uses. -/

/-- The whitespace characters stripped by Python's `str.strip()`
(ASCII/Latin-1 portion; the source never stores wider whitespace). -/
def pyWhitespace : List Char :=
  [' ', '\t', '\n', '\x0d', '\x0b', '\x0c', '\x1c', '\x1d', '\x1e', '\x1f', '\x85', '\xa0']

/-- Python `str.strip()`. -/
def pyStrip (s : String) : String :=
  ⟨(s.data.dropWhile (pyWhitespace.contains ·)).reverse.dropWhile
    (pyWhitespace.contains ·) |>.reverse⟩

/-- The line-boundary characters recognized by Python `str.splitlines()`
(the code points below U+2028; the source never stores the two
supplementary separators). -/
def pyLineBreaks : List Char :=
  ['\n', '\x0d', '\x0b', '\x0c', '\x1c', '\x1d', '\x1e', '\x85']

/-- Model of `data.splitlines()[0]` for nonempty `data` that does not start with a
line boundary: the characters before the first line boundary. -/
def pyFirstLine (s : String) : String :=
  ⟨s.data.takeWhile (fun c => ¬ pyLineBreaks.contains c)⟩

/-- Split a character list at every occurrence of `sep`
(Python `str.split(sep)` for a one-character separator). -/
def splitOnCharAux (sep : Char) : List Char → List Char → List (List Char)
  | [], acc => [acc.reverse]
  | c :: cs, acc =>
      if c = sep then acc.reverse :: splitOnCharAux sep cs []
      else splitOnCharAux sep cs (c :: acc)

def splitOnChar (sep : Char) (s : String) : List String :=
  (splitOnCharAux sep s.data []).map (⟨·⟩)

/-- Python `sep.join(parts)`, written with structural recursion. -/
def joinWithGo (sep acc : String) : List String → String
  | [] => acc
  | p :: rest => joinWithGo sep (acc ++ sep ++ p) rest

def joinWith (sep : String) : List String → String
  | [] => ""
  | p :: rest => joinWithGo sep p rest

/-- Python `s.split(" ", 1)`: the part before the first space, and the
remainder after it when a space is present. -/
def pySplitSpace1 (s : String) : String × Option String :=
  match splitOnChar ' ' s with
  | [] => ("", none)
  | [x] => (x, none)
  | x :: rest => (x, some (joinWith " " rest))

/-- Association-list lookup (model of a `dict` / the filesystem map). -/
def alistGet {α : Type} (l : List (String × α)) (k : String) : Option α :=
  (l.find? (fun p => p.1 == k)).map (·.2)

/-- Replace or insert a binding (model of writing a file). -/
def alistSet {α : Type} (l : List (String × α)) (k : String) (v : α) :
    List (String × α) :=
  (k, v) :: l.filter (fun p => p.1 != k)

/-- Model of `os.path.dirname` for the `/`-separated paths the source builds. -/
def dirname (p : String) : String :=
  joinWith "/" (splitOnChar '/' p).dropLast

/-! ### base64url encoding (`base64.urlsafe_b64encode`) -/

/-- The base64url alphabet, in index order. -/
def B64_ALPHABET : List Char :=
  ['A', 'B', 'C', 'D', 'E', 'F', 'G', 'H', 'I', 'J', 'K', 'L', 'M',
   'N', 'O', 'P', 'Q', 'R', 'S', 'T', 'U', 'V', 'W', 'X', 'Y', 'Z',
   'a', 'b', 'c', 'd', 'e', 'f', 'g', 'h', 'i', 'j', 'k', 'l', 'm',
   'n', 'o', 'p', 'q', 'r', 's', 't', 'u', 'v', 'w', 'x', 'y', 'z',
   '0', '1', '2', '3', '4', '5', '6', '7', '8', '9', '-', '_']

/-- The alphabet character for a 6-bit value. -/
def sixbitChar (n : Nat) : Char := B64_ALPHABET.getD (n % 64) 'A'

/-- base64url encoding of a byte list, as characters, with `'='` padding
(the core of `base64.urlsafe_b64encode`).  Bytes are reduced mod 256. -/
def b64urlChars : List Nat → List Char
  | [] => []
  | [a] =>
      let a := a % 256
      [sixbitChar (a / 4), sixbitChar (a % 4 * 16), '=', '=']
  | [a, b] =>
      let a := a % 256
      let b := b % 256
      [sixbitChar (a / 4), sixbitChar (a % 4 * 16 + b / 16),
       sixbitChar (b % 16 * 4), '=']
  | a :: b :: c :: rest =>
      let a' := a % 256
      let b' := b % 256
      let c' := c % 256
      sixbitChar (a' / 4) :: sixbitChar (a' % 4 * 16 + b' / 16) ::
      sixbitChar (b' % 16 * 4 + c' / 64) :: sixbitChar (c' % 64) ::
      b64urlChars rest

/-- Model of `base64.urlsafe_b64encode(data).decode("ascii")`. -/
def b64urlEncode (data : List Nat) : String := ⟨b64urlChars data⟩

/-- Model of `base64.urlsafe_b64encode(data).decode("ascii").strip("=")`:
the encoding with its `'='` padding removed. -/
def b64urlStripEq (data : List Nat) : String :=
  ⟨(b64urlChars data).reverse.dropWhile (· = '=') |>.reverse⟩

/-! ### Token length constants (`utils.py` lines 41-45) -/

/-- Number of bits of randomness to include in the token. -/
def MIN_ENTROPY : Nat := 128

/-- Model of `TOKEN_LENGTH = (MIN_ENTROPY - 1) // 6 + 1`. -/
def TOKEN_LENGTH : Nat := (MIN_ENTROPY - 1) / 6 + 1

/-- Number of bytes the source draws from `os.urandom`:
`(TOKEN_LENGTH * 6 - 1) // 8 + 1`. -/
def URANDOM_BYTES : Nat := (TOKEN_LENGTH * 6 - 1) / 8 + 1

/-- Model of `utils._random_token`, with the `os.urandom` draw supplied as input:
`base64.urlsafe_b64encode(data).decode("ascii")[:TOKEN_LENGTH]`. -/
def randomToken (data : List Nat) : String :=
  ⟨(b64urlChars data).take TOKEN_LENGTH⟩

/-- The non-padding characters of the encoding, on their own. -/
def b64urlDataChars : List Nat → List Char
  | [] => []
  | [a] =>
      let a := a % 256
      [sixbitChar (a / 4), sixbitChar (a % 4 * 16)]
  | [a, b] =>
      let a := a % 256
      let b := b % 256
      [sixbitChar (a / 4), sixbitChar (a % 4 * 16 + b / 16),
       sixbitChar (b % 16 * 4)]
  | a :: b :: c :: rest =>
      let a' := a % 256
      let b' := b % 256
      let c' := c % 256
      sixbitChar (a' / 4) :: sixbitChar (a' % 4 * 16 + b' / 16) ::
      sixbitChar (b' % 16 * 4 + c' / 64) :: sixbitChar (c' % 64) ::
      b64urlDataChars rest

/-- The padding characters appended for `n` input bytes. -/
def b64padChars (n : Nat) : List Char :=
  if n % 3 = 0 then [] else if n % 3 = 1 then ['=', '='] else ['=']

/-- The number of non-padding characters in the encoding of `n` bytes. -/
def dataCharCount (n : Nat) : Nat :=
  n / 3 * 4 + (if n % 3 = 0 then 0 else n % 3 + 1)

/-! ### JSON values and JWT decode results

A model of the values Python's `json.loads` produces, and of the
decoded form of a JWT segment triple.  The stdlib decoding steps
themselves (`base64.b64decode` + `json.loads` of externally supplied
blobs) are modelled as oracles carried in the state `Sys`. -/

inductive Json where
  | null
  | bool (b : Bool)
  | num (n : Int)
  | str (s : String)
  | arr (elems : List Json)
  | obj (fields : List (String × Json))
  deriving Repr, Inhabited

/-- Python truthiness of a JSON value. -/
def jTruthy : Json → Bool
  | .null => false
  | .bool b => b
  | .num n => n != 0
  | .str s => s != ""
  | .arr l => !l.isEmpty
  | .obj l => !l.isEmpty

/-- Model of `dict.get` on a JSON object (`none` when the value is not an object
or the key is missing). -/
def jGet : Json → String → Option Json
  | .obj fields, k => alistGet fields k
  | _, _ => none

/-- The results of the stdlib decoding steps applied to a JWT-shaped
string: `json.loads(base64.urlsafe_b64decode(part + "==="))` of the
first two segments (`none` when either step raises) and whether the
third segment base64-decodes. -/
structure JwtParse where
  hdr : Option Json
  pay : Option Json
  sigOk : Bool
  deriving Repr, Inhabited

/-! ### The system state

All ambient inputs of the Python code: the filesystem, environment
variables, fault-injection switches, the `os.urandom` stream, the
process-wide `DEFERRED` list, and oracles for the stdlib decoding of
externally supplied blobs. -/

structure Sys where
  /-- file contents by path -/
  files : List (String × String)
  /-- directories that exist -/
  dirs : List String
  /-- paths whose write attempt raises `OSError(errno)`
  (`makedirs`/`open`/`write` in `_write_attempt`) -/
  wfail : List (String × Nat)
  /-- paths whose open/read raises (the `except` branch of `_read_file`) -/
  rfail : List String
  /-- environment variables -/
  env : List (String × String)
  /-- the result of `_search_path()` (built by that function from
  conda's `SEARCH_PATH`, an external collaborator) -/
  searchPath : List String
  /-- the machine node id from `uuid` (`0` models "not available",
  which is falsy in the source) -/
  nodeVal : Nat
  /-- `sys.prefix` -/
  sysPfx : String
  /-- the package `__version__` string -/
  version : String
  /-- `ANACONDA_ANON_USAGE_READ_CHAOS` -/
  readChaos : String
  /-- `ANACONDA_ANON_USAGE_WRITE_CHAOS` -/
  writeChaos : String
  /-- `utils.WRITE_NEWLINE` -/
  writeNewline : Bool
  /-- the `os.urandom` stream: successive draws -/
  rng : List (List Nat)
  /-- the process-wide `DEFERRED` list: `(must_exist, fpath, token, what)` -/
  deferred : List (Option String × String × String × String)
  /-- oracle for `json.loads` on whole keyring files (`none` = raises) -/
  jsonOracle : List (String × Json)
  /-- oracle for `json.loads(base64.b64decode(rec))["api_key"]` on a
  keyring entry (absent = that chain raises) -/
  entryOracle : List (String × Json)
  /-- oracle for the stdlib decode of a JWT string's three segments -/
  jwtOracle : List (String × JwtParse)

/-- Model of `JwtParse` of a string under the state's oracle; a string the oracle
does not know fails to decode. -/
def lookupJwt (s : Sys) (t : String) : JwtParse :=
  (alistGet s.jwtOracle t).getD ⟨none, none, false⟩

/-! ### `utils.py`: constants and the token cache -/

def WRITE_SUCCESS : Nat := 0
def WRITE_DEFER : Nat := 1
def WRITE_FAIL : Nat := 2

def EPERM : Nat := 1
def EACCES : Nat := 13
def EROFS : Nat := 30

/-- Model of `tokens.CONFIG_DIR = expanduser("~/.conda")` (home expansion is kept
symbolic in the model). -/
def CONFIG_DIR : String := "~/.conda"

/-- Model of `tokens.ANACONDA_DIR = expanduser("~/.anaconda")`. -/
def ANACONDA_DIR : String := "~/.anaconda"

def ORG_TOKEN_NAME : String := "org_token"
def MACHINE_TOKEN_NAME : String := "machine_token"

/-- Model of `what[0] in CHAOS`: whether the kind letter of `what` appears in a
chaos switch string. -/
def chaosHit (chaos what : String) : Bool :=
  match what.data with
  | [] => false
  | c :: _ => chaos.data.contains c

/-- The `must_exist and not isdir(must_exist)` guard of `_write_attempt`
(`must_exist` is falsy when `None` or the empty string). -/
def mustExistBlocks (s : Sys) (must_exist : Option String) : Bool :=
  match must_exist with
  | some d => d != "" && !(s.dirs.contains d)
  | none => false

/-- Model of `utils._write_attempt`.  Returns the status code and the updated
state.  Any exception in the `try` block — whether its errno is
`EACCES`/`EPERM`/`EROFS` (logged as a permissions problem) or anything
else (logged as unexpected) — is caught and mapped to `WRITE_FAIL`;
the errno only selects the log message. -/
def writeAttempt (s : Sys) (must_exist : Option String) (fpath content : String)
    (emulate_fail : Bool) : Nat × Sys :=
  if mustExistBlocks s must_exist then (WRITE_DEFER, s)
  else if emulate_fail then (WRITE_FAIL, s)
  else
    match alistGet s.wfail fpath with
    | some _errno => (WRITE_FAIL, s)
    | none =>
        let content := if s.writeNewline then content ++ "\n# Test comment" else content
        (WRITE_SUCCESS,
         { s with files := alistSet s.files fpath content,
                  dirs := dirname fpath :: s.dirs })

/-- Model of `utils._deferred_exists`: first pending write for `(fpath, what)`. -/
def deferredExists (deferred_writes : List (Option String × String × String × String))
    (fpath what : String) : Option String :=
  match deferred_writes with
  | [] => none
  | (_, fp, token, w) :: rest =>
      if fp == fpath && w == what then some token
      else deferredExists rest fpath what

/-- The body of `utils._read_file` after the deferred check: chaos
pretends the file is absent; a missing file or a raising read yields
`None`; otherwise the contents, reduced to the first non-blank line
when `single_line` is set. -/
def readFileBody (s : Sys) (fpath what : String) (single_line : Bool) : Option String :=
  if chaosHit s.readChaos what then none
  else
    match alistGet s.files fpath with
    | none => none
    | some data =>
        if s.rfail.contains fpath then none
        else if single_line then
          let d := pyStrip data
          if d = "" then some d else some (pyFirstLine d)
        else some data

/-- Model of `utils._read_file`: a truthy deferred token for `(fpath, what)` is
returned ahead of the filesystem. -/
def readFile (s : Sys) (fpath what : String) (single_line : Bool) : Option String :=
  match deferredExists s.deferred fpath what with
  | some t => if t = "" then readFileBody s fpath what single_line else some t
  | none => readFileBody s fpath what single_line

/-- Little-endian byte decomposition (`val.to_bytes(6, sys.byteorder)`
on a little-endian host). -/
def natToBytesLE : Nat → Nat → List Nat
  | 0, _ => []
  | k + 1, n => n % 256 :: natToBytesLE k (n / 256)

/-- Model of `utils._get_node_str`: the base64url encoding of the 6-byte node id,
or a falsy value (`none`) when no node id is available. -/
def getNodeStr (s : Sys) : Option String :=
  if s.nodeVal = 0 then none
  else some (b64urlEncode (natToBytesLE 6 s.nodeVal))

/-- Python truthiness of an optional string (`None` and `""` falsy). -/
def optFalsy : Option String → Bool
  | none => true
  | some s => s == ""

/-- Python `!=` between a `str` and a `str`-or-`None` value (a string,
even the empty one, never equals `None`). -/
def pyNeStrOpt (a : String) : Option String → Bool
  | none => true
  | some b => a != b

/-- One fresh `os.urandom` draw fed to `_random_token`. -/
def drawRandom (s : Sys) : String × Sys :=
  match s.rng with
  | [] => (randomToken [], s)
  | d :: rest => (randomToken d, { s with rng := rest })

/-- The `if node_tie:` block of `utils._saved_token` (lines 233-263):
given the regeneration flag from the length check and the inline
remainder `xtra` of the stored line, decide the final
`(regenerate, resave)` flags and perform the sidecar write.  The
`true_node != current_node` test is only reached with `true_node` a
truthy string, where Option equality coincides with Python `!=` even
against a falsy node id. -/
def nodeTieCheck (s : Sys) (fpath : String) (regenerate0 : Bool)
    (xtra : Option String) : Bool × Bool × Sys :=
  let current_node := getNodeStr s
  let npath := fpath ++ "_host"
  let saved_node := (readFile s npath "Host id" true).getD ""
  let true_node : Option String :=
    if saved_node ≠ "" then some saved_node else xtra
  let (reg, res) :=
    if regenerate0 || optFalsy true_node then (regenerate0, false)
    else if true_node ≠ current_node then (true, false)
    else if xtra.isSome then (regenerate0, true)
    else (regenerate0, false)
  let s' :=
    if pyNeStrOpt saved_node current_node then
      let cn := current_node.getD ""
      let (st, sw) := writeAttempt s none npath cn false
      if st = WRITE_DEFER then
        { sw with deferred := sw.deferred ++ [(none, npath, cn, "Host ID")] }
      else sw
    else s
  (reg, res, s')

/-- The persistence step of `utils._saved_token` (lines 264-278): draw a
fresh token when regenerating, attempt the write, and map the write
status to the returned value and deferred-list update. -/
def persistToken (s1 : Sys) (fpath what client0 : String)
    (must_exist : Option String) (regenerate1 : Bool) (emulate : Bool) :
    String × Sys :=
  let (client1, s2) := if regenerate1 then drawRandom s1 else (client0, s1)
  let (status, s3) := writeAttempt s2 must_exist fpath client1 emulate
  if status = WRITE_FAIL then ("", s3)
  else if status = WRITE_DEFER then
    (client1, { s3 with deferred := s3.deferred ++ [(must_exist, fpath, client1, what)] })
  else (client1, s3)

/-- Model of `utils._saved_token`.  `what0` is the kind (`"client"`,
`"environment"`); the source renames it to `what0 ++ " token"` before
any lookup.  Returns the token (possibly `""`) and the updated state. -/
def savedToken (s : Sys) (fpath what0 : String) (must_exist : Option String)
    (read_only node_tie : Bool) : String × Sys :=
  let what := what0 ++ " token"
  let read0 := (readFile s fpath what true).getD ""
  -- Version 0.7.0 stored the host ID alongside the client token
  let sp := pySplitSpace1 read0
  let regenerate0 : Bool := sp.1.length < TOKEN_LENGTH
  let (regenerate1, resave, s1) :=
    if node_tie then nodeTieCheck s fpath regenerate0 sp.2
    else (regenerate0, false, s)
  if regenerate1 || resave then
    if read_only then ("", s1)
    else persistToken s1 fpath what sp.1 must_exist regenerate1
      (chaosHit s.writeChaos what)
  else (sp.1, s1)

/-- One step of `utils._final_attempt`'s loop. -/
def finalAttemptGo (s : Sys) :
    List (Option String × String × String × String) → Sys
  | [] => s
  | (me, fp, tok, _w) :: rest => finalAttemptGo (writeAttempt s me fp tok false).2 rest

/-- Model of `utils._final_attempt`: the exit-time flush of the `DEFERRED` list
(each entry retried once, results ignored). -/
def finalAttempt (s : Sys) : Sys := finalAttemptGo s s.deferred

/-! ### `tokens.py`: system-token locator -/

/-- A character admitted by `VALID_TOKEN_RE`. -/
def validTokenChar (c : Char) : Bool :=
  ('A' ≤ c && c ≤ 'Z') || ('a' ≤ c && c ≤ 'z') ||
  ('0' ≤ c && c ≤ '9') || c == '_' || c == '-'

/-- Python `re.match(VALID_TOKEN_RE, t)` for
`VALID_TOKEN_RE = r"^(?:[A-Za-z0-9]|_|-){1,36}$"`: a match exists iff
`t` is 1 to 36 admitted characters, optionally followed by one final
newline (Python's `$` also matches just before a trailing newline). -/
def matchesValidToken (t : String) : Bool :=
  let cs := if t.data.getLast? = some '\n' then t.data.dropLast else t.data
  1 ≤ cs.length && cs.length ≤ 36 && cs.all validTokenChar

/-- Order-preserving first-occurrence deduplication
(`list(dict.fromkeys(...))`), with an accumulator of already-seen
keys. -/
def dedupKeepFirstAux (seen : List String) : List String → List String
  | [] => []
  | x :: xs =>
      if seen.contains x then dedupKeepFirstAux seen xs
      else x :: dedupKeepFirstAux (x :: seen) xs

def dedupKeepFirst (l : List String) : List String := dedupKeepFirstAux [] l

/-- The raw hit sequence of `tokens._system_tokens`: the truthy
environment override first, then the reads of `fname` under every
search-path directory that has it, with falsy reads dropped (the
`t for t in tokens if t` comprehension). -/
def systemTokenHits (s : Sys) (fname what : String) : List String :=
  let env_name := "ANACONDA_ANON_USAGE_" ++ fname.toUpper
  let envToks : List (Option String) :=
    match alistGet s.env env_name with
    | some t => if t ≠ "" then [some t] else []
    | none => []
  let fileToks : List (Option String) :=
    (s.searchPath.filter
      (fun path => (alistGet s.files (path ++ "/" ++ fname)).isSome)).map
      (fun path => readFile s (path ++ "/" ++ fname) (what ++ " token") true)
  ((envToks ++ fileToks).filterMap id).filter (fun t => t ≠ "")

/-- Model of `tokens._system_tokens`: the hit sequence with exact duplicates
removed keeping the first occurrence, then entries failing
`VALID_TOKEN_RE` discarded. -/
def systemTokens (s : Sys) (fname what : String) : List String :=
  (dedupKeepFirst (systemTokenHits s fname what)).filter matchesValidToken

/-! ### JWT decoding (`tokens._jwt_to_token` and
`api_key._jwt_to_token`) -/

/-- The structural segment check: three nonempty dot-separated parts. -/
def jwtPartsOk (t : String) : Bool :=
  let parts := splitOnChar '.' t
  parts.length == 3 && parts.all (fun p => p ≠ "")

/-- Model of `isinstance(exp, int)` view of a JSON value (Python `bool` is an
`int` subtype: `True` counts as `1`). -/
def jAsInt : Json → Option Int
  | .num n => some n
  | .bool b => some (if b then 1 else 0)
  | _ => none

/-- Whether a JSON value is a dict. -/
def jIsObj : Json → Bool
  | .obj _ => true
  | _ => false

/-- Model of `uuid.UUID(sub).bytes`: strip `urn:`/`uuid:` markers and braces,
drop all hyphens, require 32 hex digits, and return the 16 big-endian
bytes. -/
def hexVal (c : Char) : Nat :=
  if '0' ≤ c ∧ c ≤ '9' then c.toNat - '0'.toNat
  else if 'a' ≤ c ∧ c ≤ 'f' then c.toNat - 'a'.toNat + 10
  else if 'A' ≤ c ∧ c ≤ 'F' then c.toNat - 'A'.toNat + 10
  else 0

def isHexChar (c : Char) : Bool :=
  ('0' ≤ c && c ≤ '9') || ('a' ≤ c && c ≤ 'f') || ('A' ≤ c && c ≤ 'F')

def hexPairsToBytes : List Char → List Nat
  | a :: b :: rest => (hexVal a * 16 + hexVal b) :: hexPairsToBytes rest
  | _ => []

/-- Model of `hex.replace("urn:", "")`: drop every occurrence, scanning left to
right. -/
def dropUrnMarks : List Char → List Char
  | 'u' :: 'r' :: 'n' :: ':' :: rest => dropUrnMarks rest
  | c :: cs => c :: dropUrnMarks cs
  | [] => []

/-- Model of `hex.replace("uuid:", "")`. -/
def dropUuidMarks : List Char → List Char
  | 'u' :: 'u' :: 'i' :: 'd' :: ':' :: rest => dropUuidMarks rest
  | c :: cs => c :: dropUuidMarks cs
  | [] => []

def uuidParse (t : String) : Option (List Nat) :=
  let cs0 := dropUuidMarks (dropUrnMarks t.data)
  let braces : List Char := ['\x7b', '\x7d']
  let cs := ((cs0.dropWhile (braces.contains ·)).reverse.dropWhile
    (braces.contains ·)).reverse
  let cs := cs.filter (fun c => c ≠ '-')
  if cs.length = 32 && cs.all isHexChar then some (hexPairsToBytes cs) else none

/-- Model of `tokens._jwt_to_token`: the structural checks, then the encoded
subscriber and the raw `exp` value — the expiration is *not* compared
to the current time; any failed check or exception yields `(None, 0)`. -/
def jwtToTokenT (p : JwtParse) (t : String) : Option String × Int :=
  if t = "" then (none, 0)
  else if !(jwtPartsOk t) then (none, 0)
  else
    match p.hdr, p.pay with
    | some hdr, some pay =>
        if !p.sigOk then (none, 0)
        else if !(jIsObj hdr) then (none, 0)
        else if !(match jGet hdr "typ" with
                  | some (.str ty) => ty == "JWT"
                  | _ => false) then (none, 0)
        else if !(jIsObj pay) then (none, 0)
        else
          match (jGet pay "exp").bind jAsInt with
          | some e =>
              if e > 0 then
                match jGet pay "sub" with
                | some sub =>
                    if !(jTruthy sub) then (none, 0)
                    else
                      match sub with
                      | .str subs =>
                          (match uuidParse subs with
                           | some bytes => (some (b64urlStripEq bytes), e)
                           | none => (none, 0))
                      | _ => (none, 0)
                | none => (none, 0)
              else (none, 0)
          | none => (none, 0)
    | _, _ => (none, 0)

/-- Model of `api_key._jwt_to_token`: same structural checks, but the expiration
is compared against the current time `now` before the subscriber checks,
and on success the function returns the pair `(s, token)` — the original
string and the encoded subscriber; every failure yields
`(None, None)`. -/
def jwtToTokenA (p : JwtParse) (now : Int) (t : String) :
    Option String × Option String :=
  if t = "" then (none, none)
  else if !(jwtPartsOk t) then (none, none)
  else
    match p.hdr, p.pay with
    | some hdr, some pay =>
        if !p.sigOk then (none, none)
        else if !(jIsObj hdr) then (none, none)
        else if !(match jGet hdr "typ" with
                  | some (.str ty) => ty == "JWT"
                  | _ => false) then (none, none)
        else if !(jIsObj pay) then (none, none)
        else
          match (jGet pay "exp").bind jAsInt with
          | some e =>
              if e > 0 then
                if e < now then (none, none)
                else
                  match jGet pay "sub" with
                  | some sub =>
                      if !(jTruthy sub) then (none, none)
                      else
                        match sub with
                        | .str subs =>
                            (match uuidParse subs with
                             | some bytes => (some t, some (b64urlStripEq bytes))
                             | none => (none, none))
                        | _ => (none, none)
                  | none => (none, none)
              else (none, none)
          | none => (none, none)
    | _, _ => (none, none)

/-! ### `tokens.anaconda_auth_token` -/

/-- Exceptions that can escape the embedded functions. -/
inductive PyErr where
  /-- `UnboundLocalError` (a `NameError`): a local referenced before
  assignment -/
  | unboundLocal
  /-- `AttributeError` -/
  | attrErr
  deriving Repr, DecidableEq

/-- Model of `_jwt_to_token(tdata)` where `tdata` was produced by JSON decoding:
non-string values fail falsy-check or raise inside the `try` and give
`(None, 0)` either way. -/
def jwtFromJson (s : Sys) : Json → Option String × Int
  | .str u => jwtToTokenT (lookupJwt s u) u
  | _ => (none, 0)

/-- The keyring entry loop of `anaconda_auth_token`.  `tdata` carries the
Python local of the same name: `none` means *unbound*.  When the parse
of the current entry raises, the exception is caught but `tdata` keeps
its previous value — and referencing it while still unbound raises
`UnboundLocalError` out of the function. -/
def keyringLoop (s : Sys) :
    List (String × Json) → Option Json → Option String → Int →
    Except PyErr (Option String)
  | [], _, token, _ => .ok token
  | (_k, rec) :: rest, tdata, token, exp =>
      let tdata' :=
        match rec with
        | .str r =>
            (match alistGet s.entryOracle r with
             | some j => some j
             | none => tdata)
        | _ => tdata
      match tdata' with
      | none => .error .unboundLocal
      | some td =>
          let (t_token, t_exp) := jwtFromJson s td
          if t_exp > exp then keyringLoop s rest tdata' t_token t_exp
          else keyringLoop s rest tdata' token exp

/-- Model of `tokens.anaconda_auth_token`: environment variable first, then the
keyring file, selecting the entry with the latest expiration.  The
result is the encoded subscriber or `None`; a malformed *first* keyring
entry makes the loop raise. -/
def anacondaAuthToken (s : Sys) : Except PyErr (Option String) :=
  let envv := (alistGet s.env "ANACONDA_AUTH_API_KEY").getD ""
  let envTok := if envv ≠ "" then (jwtToTokenT (lookupJwt s envv) envv).1 else none
  match envTok with
  | some t => .ok (some t)
  | none =>
      let fpath := ANACONDA_DIR ++ "/keyring"
      match readFile s fpath "anaconda keyring" false with
      | none => .ok none
      | some data =>
          if data = "" then .ok none
          else
            match alistGet s.jsonOracle data with
            | none => .ok none
            | some j =>
                if !(jTruthy j) || !(jIsObj j) then .ok none
                else
                  match jGet j "Anaconda Cloud" with
                  | none => .ok none
                  | some v =>
                      if jTruthy v then
                        match v with
                        | .obj entries => keyringLoop s entries none none 0
                        | _ => .error .attrErr
                      else .ok none

/-! ### `tokens.all_tokens` and `tokens.token_string` -/

structure Tokens where
  version : String
  client : String
  session : String
  environment : String
  anaconda_cloud : Option String
  organization : List String
  machine : List String
  deriving Repr

/-- Model of `tokens.client_token` (memoization by `@cached` not modelled). -/
def clientToken (s : Sys) : String × Sys :=
  savedToken s (CONFIG_DIR ++ "/aau_token") "client" none false true

/-- Model of `tokens.session_token`: `_random_token("session")`. -/
def sessionToken (s : Sys) : String × Sys := drawRandom s

/-- Model of `tokens.environment_token`. -/
def environmentToken (s : Sys) (pfx : Option String) : String × Sys :=
  let p := pfx.getD s.sysPfx
  savedToken s (p ++ "/etc/aau_token") "environment" (some p) false false

def organizationTokens (s : Sys) : List String :=
  systemTokens s ORG_TOKEN_NAME "organization"

def machineTokens (s : Sys) : List String :=
  systemTokens s MACHINE_TOKEN_NAME "machine"

/-- Model of `tokens.all_tokens`: the namedtuple, with the constructor arguments
evaluated left to right as in Python. -/
def allTokens (s : Sys) (pfx : Option String) : Except PyErr (Tokens × Sys) :=
  let (c, s1) := clientToken s
  let (sess, s2) := sessionToken s1
  let (e, s3) := environmentToken s2 pfx
  match anacondaAuthToken s3 with
  | .error err => .error err
  | .ok a =>
      .ok (⟨s3.version, c, sess, e, a, organizationTokens s3, machineTokens s3⟩, s3)

/-- Python truthiness of the `anaconda_cloud` field (`None` or `""`
falsy). -/
def cloudField (a : Option String) : List String :=
  match a with
  | some t => if t ≠ "" then ["a/" ++ t] else []
  | none => []

/-- Model of `tokens.token_string`. -/
def tokenString (s : Sys) (pfx : Option String) (enabled : Bool) :
    Except PyErr (String × Sys) :=
  let parts0 := ["aau/" ++ s.version]
  if enabled then
    match allTokens s pfx with
    | .error err => .error err
    | .ok (v, s') =>
        let parts := parts0
          ++ (if v.client ≠ "" then ["c/" ++ v.client] else [])
          ++ (if v.session ≠ "" then ["s/" ++ v.session] else [])
          ++ (if v.environment ≠ "" then ["e/" ++ v.environment] else [])
          ++ cloudField v.anaconda_cloud
          ++ v.organization.map ("o/" ++ ·)
          ++ v.machine.map ("m/" ++ ·)
        .ok (joinWith " " parts, s')
  else .ok (joinWith " " parts0, s)

/-- Modelled from the spec: installer-token support.  `tokens.py` in the
repository contains no installer tokens, but the spec (§2, §3, §4.4:
"zero-or-more installer fields") and the repository's own tests
(`tests/unit/test_tokens.py`, the `i/` assertions and the
`ANACONDA_ANON_USAGE_INSTALLER_TOKEN` variable) require a third
system-token kind located like the organization and machine kinds. -/
def INSTALLER_TOKEN_NAME : String := "installer_token"

/-- Modelled from the spec: the installer system tokens, located like
the organization and machine tokens. -/
def installerTokens (s : Sys) : List String :=
  systemTokens s INSTALLER_TOKEN_NAME "installer"

/-- Modelled from the spec: `token_string` as §4.4 describes it, with the
zero-or-more installer fields after the machine fields. -/
def specTokenString (s : Sys) (pfx : Option String) (enabled : Bool) :
    Except PyErr (String × Sys) :=
  match tokenString s pfx enabled with
  | .error err => .error err
  | .ok (r, s') =>
      if enabled then
        .ok (joinWith " " (r :: (installerTokens s).map ("i/" ++ ·)), s')
      else .ok (r, s')


/-- The `.ok` string of a `token_string` run (`""` for a raised
exception); used to state concrete evaluations. -/
def okPart (e : Except PyErr (String × Sys)) : String :=
  match e with
  | .ok (r, _) => r
  | .error _ => ""

/-- A minimal concrete state: empty filesystem and environment, no node
id, no randomness drawn yet. -/
def wSys : Sys :=
  { files := [], dirs := [], wfail := [], rfail := [], env := [],
    searchPath := [], nodeVal := 0, sysPfx := "/opt/conda", version := "0.8.0",
    readChaos := "", writeChaos := "", writeNewline := false,
    rng := [], deferred := [], jsonOracle := [], entryOracle := [],
    jwtOracle := [] }

/-- Model of `wSys` with three fresh 17-byte `os.urandom` draws available. -/
def wSysR : Sys :=
  { wSys with rng := [List.replicate 17 0, List.replicate 17 255, List.replicate 17 7] }

/-- Model of `wSys` with a read-only token location: writes to `/ro/aau_token`
raise `OSError(EACCES)`. -/
def wSysC5 : Sys :=
  { wSys with wfail := [("/ro/aau_token", EACCES)], rng := [List.replicate 17 0] }

/-- A state whose keyring file holds one entry whose
`json.loads(base64.b64decode(rec))["api_key"]` chain raises: the raw
file text is `"KEYRING_RAW"` and decodes to a keyring whose single
`Anaconda Cloud` record `"BADREC"` is not decodable (it is absent from
the entry oracle). -/
def sysKeyringCrash : Sys :=
  { wSys with
    rng := [List.replicate 17 0, List.replicate 17 255, List.replicate 17 7],
    files := [(ANACONDA_DIR ++ "/keyring", "KEYRING_RAW")],
    jsonOracle := [("KEYRING_RAW",
      Json.obj [("Anaconda Cloud", Json.obj [("anaconda.com", Json.str "BADREC")])])] }

/-- A state with a valid administrator-installed `installer_token` file
in the system-token search path. -/
def sysInstaller : Sys :=
  { wSys with
    rng := [List.replicate 17 0, List.replicate 17 255, List.replicate 17 7],
    dirs := ["/opt/conda"],
    searchPath := ["/d1"],
    files := [("/d1/installer_token", "instok")] }

/-- A state whose environment-token file's first line has 24 characters,
with a space after the 22nd: the part before the space is a full-length
token. -/
def sysLineSpace : Sys :=
  { wSys with
    files := [("/p/etc/aau_token", "aaaaaaaaaaaaaaaaaaaaaa b")],
    dirs := ["/p"] }

/-- A node-tied state: the token file is in the pre-0.7.0 inline
`token + host-id` format, the sidecar is absent, and the recorded inline
id `"xyz"` differs from the current machine's id. -/
def sysForeignInline : Sys :=
  { wSys with
    nodeVal := 1,
    rng := [List.replicate 17 0],
    files := [("/h/aau_token", "BBBBBBBBBBBBBBBBBBBBBB xyz")] }

/-- A decoded JWT whose header carries `typ = "JWT"` and whose payload
has `exp = 5` and a canonical UUID subscriber. -/
def jwtParseValid : JwtParse :=
  { hdr := some (Json.obj [("typ", Json.str "JWT")]),
    pay := some (Json.obj [("exp", Json.num 5),
      ("sub", Json.str "12345678-1234-5678-1234-567812345678")]),
    sigOk := true }

/-- The 16 bytes of the UUID `12345678-1234-5678-1234-567812345678`. -/
def uuidBytesC9 : List Nat :=
  [18, 52, 86, 120, 18, 52, 86, 120, 18, 52, 86, 120, 18, 52, 86, 120]

/-- A state whose environment-token file holds a full-length (22
character) token with no space. -/
def wSysC6read : Sys :=
  { wSys with files := [("/e/aau_token", "cccccccccccccccccccccc")] }

/-- A state whose environment-token file holds a too-short token. -/
def wSysC6short : Sys :=
  { wSys with
    files := [("/e/aau_token", "abc")],
    rng := [List.replicate 17 1] }

/-- A node-tied state whose sidecar records a foreign host id `"zz"`
while the current machine's id encodes to `"AQAAAAAA"`. -/
def wSysC7a : Sys :=
  { wSys with
    nodeVal := 1,
    rng := [List.replicate 17 0],
    files := [("/h/aau_token", "dddddddddddddddddddddd"),
              ("/h/aau_token_host", "zz")] }

/-- A node-tied state whose token file is in the inline
`token + host-id` format with the id equal to the current machine's. -/
def wSysC7b : Sys :=
  { wSys with
    nodeVal := 1,
    files := [("/h/aau_token", "eeeeeeeeeeeeeeeeeeeeee AQAAAAAA")] }

/-! ## Theorems -/

/-! Basic facts about the encoder needed by several claims. -/

theorem sixbitChar_mem (n : Nat) : sixbitChar n ∈ B64_ALPHABET := by
  have h : n % 64 < B64_ALPHABET.length := by
    have h64 : n % 64 < 64 := Nat.mod_lt _ (by decide)
    have hlen : B64_ALPHABET.length = 64 := rfl
    omega
  unfold sixbitChar
  rw [List.getD_eq_getElem _ _ h]
  exact List.getElem_mem h

theorem eq_char_not_mem_alphabet : '=' ∉ B64_ALPHABET := by decide

theorem space_not_mem_alphabet : ' ' ∉ B64_ALPHABET := by decide

/-- The encoding splits into its data characters followed by padding. -/
theorem b64urlChars_eq_data_append (data : List Nat) :
    b64urlChars data = b64urlDataChars data ++ b64padChars data.length := by
  induction data using b64urlChars.induct with
  | case1 => simp [b64urlChars, b64urlDataChars, b64padChars]
  | case2 a => simp [b64urlChars, b64urlDataChars, b64padChars]
  | case3 a b => simp [b64urlChars, b64urlDataChars, b64padChars]
  | case4 a b c rest ih =>
      have hmod : (rest.length + 1 + 1 + 1) % 3 = rest.length % 3 := by omega
      simp only [b64urlChars, b64urlDataChars, List.length_cons, ih,
        List.cons_append, b64padChars, hmod]

/-- Every data character of the encoding is an alphabet character. -/
theorem mem_b64urlDataChars (data : List Nat) (c : Char)
    (hc : c ∈ b64urlDataChars data) : c ∈ B64_ALPHABET := by
  induction data using b64urlDataChars.induct with
  | case1 => simp [b64urlDataChars] at hc
  | case2 a =>
      simp only [b64urlDataChars, List.mem_cons, List.not_mem_nil, or_false] at hc
      rcases hc with h | h
      · exact h ▸ sixbitChar_mem _
      · exact h ▸ sixbitChar_mem _
  | case3 a b =>
      simp only [b64urlDataChars, List.mem_cons, List.not_mem_nil, or_false] at hc
      rcases hc with h | h | h
      · exact h ▸ sixbitChar_mem _
      · exact h ▸ sixbitChar_mem _
      · exact h ▸ sixbitChar_mem _
  | case4 a b c' rest ih =>
      simp only [b64urlDataChars, List.mem_cons] at hc
      rcases hc with h | h | h | h | h
      · exact h ▸ sixbitChar_mem _
      · exact h ▸ sixbitChar_mem _
      · exact h ▸ sixbitChar_mem _
      · exact h ▸ sixbitChar_mem _
      · exact ih h


theorem length_b64urlDataChars (data : List Nat) :
    (b64urlDataChars data).length = dataCharCount data.length := by
  induction data using b64urlDataChars.induct with
  | case1 => simp [b64urlDataChars, dataCharCount]
  | case2 a => simp [b64urlDataChars, dataCharCount]
  | case3 a b => simp [b64urlDataChars, dataCharCount]
  | case4 a b c rest ih =>
      simp only [b64urlDataChars, List.length_cons, ih, dataCharCount]
      have hmod : (rest.length + 1 + 1 + 1) % 3 = rest.length % 3 := by omega
      have hdiv : (rest.length + 1 + 1 + 1) / 3 = rest.length / 3 + 1 := by omega
      rw [hmod, hdiv]
      omega

/-- Taking at most `dataCharCount` characters of the encoding stays within
the data characters. -/
theorem take_b64urlChars_eq (data : List Nat) (k : Nat)
    (hk : k ≤ dataCharCount data.length) :
    (b64urlChars data).take k = (b64urlDataChars data).take k := by
  rw [b64urlChars_eq_data_append]
  exact List.take_append_of_le_length (by rw [length_b64urlDataChars]; exact hk)


/-! ### Helper lemmas: strings, joins, splits -/

theorem strData_append (a b : String) : (a ++ b).data = a.data ++ b.data := rfl

theorem strAppend_empty (s : String) : s ++ "" = s :=
  congrArg String.mk (List.append_nil s.data)

theorem strAppend_assoc (a b c : String) : a ++ b ++ c = a ++ (b ++ c) :=
  congrArg String.mk (List.append_assoc a.data b.data c.data)

theorem strLength_mk (l : List Char) : (String.mk l).length = l.length := rfl

theorem joinWithGo_shift (sep : String) :
    ∀ (l : List String) (acc : String),
      joinWithGo sep acc l = acc ++ joinWithGo sep "" l := by
  intro l
  induction l with
  | nil => intro acc; simp [joinWithGo, strAppend_empty]
  | cons p rest ih =>
      intro acc
      show joinWithGo sep (acc ++ sep ++ p) rest = acc ++ joinWithGo sep (sep ++ p) rest
      rw [ih (acc ++ sep ++ p), ih (sep ++ p), strAppend_assoc, strAppend_assoc,
        strAppend_assoc sep p]

theorem joinWith_cons₂ (sep x y : String) (l : List String) :
    joinWith sep (x :: y :: l) = x ++ sep ++ joinWith sep (y :: l) := by
  show joinWithGo sep (x ++ sep ++ y) l = x ++ sep ++ joinWithGo sep y l
  rw [joinWithGo_shift sep l (x ++ sep ++ y), joinWithGo_shift sep l y,
    strAppend_assoc]

theorem joinWith_cons_exists (sep x : String) (l : List String) :
    ∃ t, joinWith sep (x :: l) = x ++ t := by
  show ∃ t, joinWithGo sep x l = x ++ t
  exact ⟨joinWithGo sep "" l, joinWithGo_shift sep l x⟩

theorem splitOnCharAux_ne_sep (sep : Char) :
    ∀ (cs acc : List Char), sep ∉ cs →
      splitOnCharAux sep cs acc = [acc.reverse ++ cs] := by
  intro cs
  induction cs with
  | nil => intro acc _; simp [splitOnCharAux]
  | cons c cs ih =>
      intro acc h
      have hc : ¬ c = sep := fun hh => h (hh ▸ List.mem_cons_self c cs)
      have hcs : sep ∉ cs := fun hh => h (List.mem_cons_of_mem c hh)
      simp only [splitOnCharAux, if_neg hc, ih (c :: acc) hcs,
        List.reverse_cons, List.append_assoc, List.singleton_append]

theorem splitOnCharAux_head (sep : Char) :
    ∀ (cs acc : List Char), ∃ hd tl,
      splitOnCharAux sep cs acc = (acc.reverse ++ hd) :: tl ∧ sep ∉ hd := by
  intro cs
  induction cs with
  | nil =>
      intro acc
      exact ⟨[], [], by simp [splitOnCharAux], by simp⟩
  | cons c cs ih =>
      intro acc
      by_cases hc : c = sep
      · refine ⟨[], splitOnCharAux sep cs [], ?_, by simp⟩
        simp [splitOnCharAux, hc]
      · obtain ⟨hd, tl, h1, h2⟩ := ih (c :: acc)
        refine ⟨c :: hd, tl, ?_, ?_⟩
        · simp only [splitOnCharAux, if_neg hc, h1, List.reverse_cons,
            List.append_assoc, List.singleton_append]
        · intro hmem
          rcases List.mem_cons.mp hmem with h | h
          · exact hc h.symm
          · exact h2 h

theorem splitOnCharAux_append (sep : Char) :
    ∀ (a acc b : List Char), sep ∉ a →
      splitOnCharAux sep (a ++ sep :: b) acc =
        (acc.reverse ++ a) :: splitOnCharAux sep b [] := by
  intro a
  induction a with
  | nil =>
      intro acc b _
      simp [splitOnCharAux]
  | cons c a ih =>
      intro acc b h
      have hc : ¬ c = sep := fun hh => h (hh ▸ List.mem_cons_self c a)
      have ha : sep ∉ a := fun hh => h (List.mem_cons_of_mem c hh)
      show splitOnCharAux sep (c :: (a ++ sep :: b)) acc = _
      simp only [splitOnCharAux, if_neg hc]
      rw [ih (c :: acc) b ha]
      simp only [List.reverse_cons, List.append_assoc, List.singleton_append]

theorem join_splitOnCharAux :
    ∀ (cs acc : List Char),
      joinWith " " ((splitOnCharAux ' ' cs acc).map (⟨·⟩)) =
        ⟨acc.reverse ++ cs⟩ := by
  intro cs
  induction cs with
  | nil =>
      intro acc
      show joinWith " " [⟨acc.reverse⟩] = _
      show (⟨acc.reverse⟩ : String) = _
      exact congrArg String.mk (List.append_nil acc.reverse).symm
  | cons c cs ih =>
      intro acc
      by_cases hc : c = ' '
      · subst hc
        simp only [splitOnCharAux, if_true, List.map_cons]
        obtain ⟨hd, tl, h1, _⟩ := splitOnCharAux_head ' ' cs []
        rw [h1, List.map_cons, joinWith_cons₂, ← List.map_cons, ← h1, ih []]
        refine congrArg String.mk ?_
        show (acc.reverse ++ [' ']) ++ cs = acc.reverse ++ ' ' :: cs
        rw [List.append_assoc, List.singleton_append]
      · simp only [splitOnCharAux, if_neg hc, ih (c :: acc), List.reverse_cons,
          List.append_assoc, List.singleton_append]

theorem pySplitSpace1_fst_no_space (s : String) :
    ' ' ∉ ((pySplitSpace1 s).1).data := by
  obtain ⟨hd, tl, h1, h2⟩ := splitOnCharAux_head ' ' s.data []
  unfold pySplitSpace1 splitOnChar
  rw [h1]
  simp only [List.nil_append, List.map_cons]
  cases tl with
  | nil => exact h2
  | cons t ts => exact h2

theorem pySplitSpace1_no_space (s : String) (h : ' ' ∉ s.data) :
    pySplitSpace1 s = (s, none) := by
  unfold pySplitSpace1 splitOnChar
  rw [splitOnCharAux_ne_sep ' ' s.data [] h]
  rfl

theorem pySplitSpace1_append (a b : String) (h : ' ' ∉ a.data) :
    pySplitSpace1 (a ++ " " ++ b) = (a, some b) := by
  unfold pySplitSpace1 splitOnChar
  have hdata : (a ++ " " ++ b).data = a.data ++ ' ' :: b.data := by
    show (a.data ++ [' ']) ++ b.data = a.data ++ ' ' :: b.data
    rw [List.append_assoc, List.singleton_append]
  rw [hdata, splitOnCharAux_append ' ' a.data [] b.data h]
  simp only [List.nil_append, List.map_cons]
  obtain ⟨hd, tl, h1, _⟩ := splitOnCharAux_head ' ' b.data []
  rw [h1]
  simp only [List.map_cons]
  have hjoin := join_splitOnCharAux b.data []
  rw [h1] at hjoin
  simp only [List.map_cons, List.nil_append, List.reverse_nil] at hjoin ⊢
  rw [hjoin]

/-! ### Helper lemmas: the random token -/

theorem pySplitSpace1_empty : pySplitSpace1 "" = ("", none) := rfl

theorem mem_b64padChars (n : Nat) (c : Char) (h : c ∈ b64padChars n) : c = '=' := by
  unfold b64padChars at h
  split at h
  · simp at h
  · split at h
    · rcases List.mem_cons.mp h with h | h
      · exact h
      · simpa using h
    · simpa using h

theorem randomToken_no_space (data : List Nat) :
    ' ' ∉ (randomToken data).data := by
  intro h
  have h1 : ' ' ∈ b64urlChars data := List.take_subset _ _ h
  rw [b64urlChars_eq_data_append] at h1
  rcases List.mem_append.mp h1 with h2 | h2
  · exact space_not_mem_alphabet (mem_b64urlDataChars data ' ' h2)
  · exact absurd (mem_b64padChars _ _ h2) (by decide)

theorem randomToken_length (data : List Nat) (h : data.length = URANDOM_BYTES) :
    (randomToken data).length = TOKEN_LENGTH := by
  show ((b64urlChars data).take TOKEN_LENGTH).length = TOKEN_LENGTH
  rw [List.length_take, b64urlChars_eq_data_append, List.length_append,
    length_b64urlDataChars, h]
  decide

theorem randomToken_alphabet (data : List Nat) (h : data.length = URANDOM_BYTES) :
    ∀ c ∈ (randomToken data).data, c ∈ B64_ALPHABET := by
  intro c hc
  have htake : (b64urlChars data).take TOKEN_LENGTH =
      (b64urlDataChars data).take TOKEN_LENGTH :=
    take_b64urlChars_eq data TOKEN_LENGTH (by rw [h]; decide)
  have : c ∈ (b64urlDataChars data).take TOKEN_LENGTH := by
    rw [← htake]; exact hc
  exact mem_b64urlDataChars data c (List.take_subset _ _ this)

theorem randomToken_no_pad (data : List Nat) (h : data.length = URANDOM_BYTES) :
    '=' ∉ (randomToken data).data := by
  intro hc
  exact eq_char_not_mem_alphabet (randomToken_alphabet data h '=' hc)

theorem randomToken_ne_empty (data : List Nat) (h : data.length = URANDOM_BYTES) :
    randomToken data ≠ "" := by
  intro he
  have := congrArg String.length he
  rw [randomToken_length data h] at this
  exact absurd this (by decide)

/-! ### Helper lemmas: association lists and file reads -/

theorem alistGet_set_self {α : Type} (l : List (String × α)) (k : String) (v : α) :
    alistGet (alistSet l k v) k = some v := by
  simp [alistGet, alistSet, List.find?]

theorem find?_filter_ne {α : Type} (k k' : String) (h : k' ≠ k) :
    ∀ l : List (String × α),
      List.find? (fun p => p.1 == k') (l.filter (fun p => p.1 != k)) =
        List.find? (fun p => p.1 == k') l := by
  intro l
  induction l with
  | nil => rfl
  | cons q l ih =>
      by_cases hq : q.1 = k
      · have h1 : (q.1 != k) = false := by simp [hq]
        have h2 : (q.1 == k') = false := by
          simp only [beq_eq_false_iff_ne, ne_eq, hq]
          exact fun hh => h hh.symm
        simp only [List.filter_cons, h1, Bool.false_eq_true, if_false,
          List.find?_cons, h2, ih]
      · have h1 : (q.1 != k) = true := by simp [hq]
        simp only [List.filter_cons, h1, if_true, List.find?_cons, ih]

theorem alistGet_set_ne {α : Type} (l : List (String × α)) (k k' : String) (v : α)
    (h : k' ≠ k) : alistGet (alistSet l k v) k' = alistGet l k' := by
  have h2 : (k == k') = false := by
    simp only [beq_eq_false_iff_ne, ne_eq]
    exact fun hh => h hh.symm
  simp only [alistGet, alistSet, List.find?_cons, h2]
  rw [find?_filter_ne k k' h l]

theorem readFile_deferred (s : Sys) (fpath what t : String) (sl : Bool)
    (hdef : deferredExists s.deferred fpath what = some t) (ht : t ≠ "") :
    readFile s fpath what sl = some t := by
  unfold readFile
  rw [hdef]
  simp [ht]

theorem readFile_absent (s : Sys) (fpath what : String) (sl : Bool)
    (hdef : deferredExists s.deferred fpath what = none)
    (hfile : alistGet s.files fpath = none) :
    readFile s fpath what sl = none := by
  unfold readFile readFileBody
  simp only [hdef, hfile]
  split <;> rfl

theorem readFile_file (s : Sys) (fpath what content : String)
    (hdef : deferredExists s.deferred fpath what = none)
    (hchaos : chaosHit s.readChaos what = false)
    (hfile : alistGet s.files fpath = some content)
    (hrfail : s.rfail.contains fpath = false) :
    readFile s fpath what true = some (pyFirstLine (pyStrip content)) := by
  unfold readFile readFileBody
  rw [hdef, hchaos, hfile]
  simp only [Bool.false_eq_true, if_false, hrfail]
  by_cases hd : pyStrip content = ""
  · simp only [hd, if_pos rfl]
    rfl
  · simp [hd]

/-! ### Helper lemmas: write attempts and the node id -/

theorem chaosHit_empty (what : String) : chaosHit "" what = false := by
  unfold chaosHit
  split <;> rfl

theorem writeAttempt_ok (s : Sys) (me : Option String) (fpath content : String)
    (hblock : mustExistBlocks s me = false)
    (hwf : alistGet s.wfail fpath = none)
    (hwn : s.writeNewline = false) :
    writeAttempt s me fpath content false =
      (WRITE_SUCCESS,
        { s with files := alistSet s.files fpath content,
                 dirs := dirname fpath :: s.dirs }) := by
  unfold writeAttempt
  rw [hblock, hwf, hwn]
  simp

theorem writeAttempt_defer (s : Sys) (me : Option String) (fpath content : String)
    (emulate : Bool) (hblock : mustExistBlocks s me = true) :
    writeAttempt s me fpath content emulate = (WRITE_DEFER, s) := by
  unfold writeAttempt
  rw [hblock]
  simp

theorem writeAttempt_fail (s : Sys) (me : Option String) (fpath content : String)
    (e : Nat) (hblock : mustExistBlocks s me = false)
    (hwf : alistGet s.wfail fpath = some e) :
    writeAttempt s me fpath content false = (WRITE_FAIL, s) := by
  unfold writeAttempt
  rw [hblock, hwf]
  simp

theorem getNodeStr_pos (s : Sys) (h : s.nodeVal ≠ 0) :
    getNodeStr s = some (b64urlEncode (natToBytesLE 6 s.nodeVal)) := by
  unfold getNodeStr
  rw [if_neg h]

theorem strNe_append_ne_empty (p q : String) (hq : q ≠ "") : p ++ q ≠ p := by
  intro h
  have hl := congrArg String.length h
  rw [String.length_append] at hl
  have : q.length = 0 := by omega
  exact hq (by
    cases q with
    | mk l =>
        cases l with
        | nil => rfl
        | cons c cs => simp [String.length] at this)

theorem drawRandom_fst_no_space (t : Sys) : ' ' ∉ ((drawRandom t).1).data := by
  unfold drawRandom
  split
  · exact randomToken_no_space []
  · exact randomToken_no_space _

/-! ### Claim C5 -/

/-- C5: when the attempt to persist a newly generated token raises a
permission or read-only-filesystem error (`EACCES`/`EPERM`/`EROFS`),
`_saved_token` returns the empty string at once — no exception (the
embedding is a total function), no retry (the write is attempted exactly
once and the returned state differs from the input state only by the
consumed `os.urandom` draw: the filesystem and the deferred list are
untouched). -/
theorem C5_perm_fail_returns_empty (s : Sys) (fpath what0 : String)
    (me : Option String) (data : List Nat) (rest : List (List Nat)) (e : Nat)
    (hdef : deferredExists s.deferred fpath (what0 ++ " token") = none)
    (hfile : alistGet s.files fpath = none)
    (hrng : s.rng = data :: rest)
    (hblock : mustExistBlocks s me = false)
    (hchaos : chaosHit s.writeChaos (what0 ++ " token") = false)
    (hwf : alistGet s.wfail fpath = some e)
    (he : e = EACCES ∨ e = EPERM ∨ e = EROFS) :
    savedToken s fpath what0 me false false = ("", { s with rng := rest }) := by
  have hlen : decide (("" : String).length < TOKEN_LENGTH) = true := by decide
  have hblock2 : mustExistBlocks { s with rng := rest } me = false := hblock
  have hwf2 : alistGet (Sys.wfail { s with rng := rest }) fpath = some e := hwf
  simp only [savedToken]
  rw [readFile_absent s fpath (what0 ++ " token") true hdef hfile, hchaos]
  simp only [Option.getD_none, pySplitSpace1_empty, hlen, Bool.false_eq_true,
    if_false, Bool.or_false, if_true, persistToken, drawRandom]
  rw [hrng]
  simp only []
  rw [writeAttempt_fail _ me fpath (randomToken data) e hblock2 hwf2]
  simp [WRITE_FAIL]

/-- C5 witness: a concrete read-only location (`EACCES` on write) makes
`_saved_token` return `""` with only the random draw consumed. -/
theorem C5_perm_fail_returns_empty_witness :
    alistGet wSysC5.wfail "/ro/aau_token" = some EACCES ∧
    savedToken wSysC5 "/ro/aau_token" "client" none false false =
      ("", { wSysC5 with rng := [] }) :=
  ⟨rfl, C5_perm_fail_returns_empty wSysC5 "/ro/aau_token" "client" none
    (List.replicate 17 0) [] EACCES rfl rfl rfl rfl rfl rfl (Or.inl rfl)⟩

/-! ### Claim C2 -/

/-- C2: `token_string` does *not* never-raise.  In `anaconda_auth_token`,
when the decode chain of the first `Anaconda Cloud` keyring entry
raises, the exception is caught but the local `tdata` is then read while
still unbound, so an `UnboundLocalError` escapes `anaconda_auth_token`
and propagates through `all_tokens` out of `token_string` — the `except`
handler around the entry parse shows the intent was to skip the bad
entry.  Evaluated at the concrete state `sysKeyringCrash`. -/
theorem C2_token_string_raises :
    anacondaAuthToken sysKeyringCrash = .error PyErr.unboundLocal ∧
    tokenString sysKeyringCrash none true = .error PyErr.unboundLocal :=
  ⟨rfl, rfl⟩

/-! ### Claim C1 -/

/-- C1: the token string renders the version, client, session,
environment, cloud-login, organization and machine fields in the claimed
order, but `tokens.py` contains no installer-token support at all: at a
state with a valid `installer_token` file in the search path, the
produced string has no `i/` field, while the spec-modelled assembler
(and the repository's own tests) put one after the machine fields. -/
theorem C1_installer_fields_missing :
    okPart (tokenString sysInstaller none true) =
      "aau/0.8.0 c/AAAAAAAAAAAAAAAAAAAAAA s/______________________ e/BwcHBwcHBwcHBwcHBwcHBw" ∧
    okPart (specTokenString sysInstaller none true) =
      "aau/0.8.0 c/AAAAAAAAAAAAAAAAAAAAAA s/______________________ e/BwcHBwcHBwcHBwcHBwcHBw i/instok" ∧
    alistGet sysInstaller.files "/d1/installer_token" = some "instok" ∧
    matchesValidToken "instok" = true :=
  ⟨rfl, rfl, rfl, rfl⟩

/-! ### Claim C3 -/

/-- C3: `token_string` always begins with the `"aau/" ++ version` field;
with `enabled = False` the result is exactly that field and the state is
untouched, for *every* state (whatever is on disk or deferred); with
`enabled = True`, every returned string extends that field. -/
theorem C3_version_field_first :
    (∀ (s : Sys) (pfx : Option String),
      tokenString s pfx false = .ok ("aau/" ++ s.version, s)) ∧
    (∀ (s : Sys) (pfx : Option String),
      match tokenString s pfx true with
      | .ok (r, _) => ∃ t, r = ("aau/" ++ s.version) ++ t
      | .error _ => True) := by
  constructor
  · intro s pfx
    rfl
  · intro s pfx
    cases hA : allTokens s pfx with
    | error e => simp [tokenString, hA]
    | ok vs =>
        obtain ⟨v, s'⟩ := vs
        simp only [tokenString, hA, List.append_assoc, List.cons_append,
          List.singleton_append]
        exact joinWith_cons_exists " " ("aau/" ++ s.version) _

/-! ### Claim C6 -/

/-- C6 counterexample: a token file whose first non-blank line has at
least 22 characters is *not* returned unchanged when the line contains a
space — only the part before the first space is returned (here the line
is 24 characters long and the call returns its 22-character head). -/
theorem C6_space_line_not_returned_unchanged :
    (savedToken sysLineSpace "/p/etc/aau_token" "environment" (some "/p") false false).1 =
      "aaaaaaaaaaaaaaaaaaaaaa" ∧
    ("aaaaaaaaaaaaaaaaaaaaaa" : String) ≠ "aaaaaaaaaaaaaaaaaaaaaa b" ∧
    TOKEN_LENGTH ≤ (pyFirstLine (pyStrip "aaaaaaaaaaaaaaaaaaaaaa b")).length ∧
    alistGet sysLineSpace.files "/p/etc/aau_token" = some "aaaaaaaaaaaaaaaaaaaaaa b" :=
  ⟨rfl, by decide, by decide, rfl⟩

/-! ### Claim C10 -/

/-- C10: every value returned by `_saved_token` — over all states,
paths, kinds, guards and flags — contains no space character: each
return path yields either `""`, the portion of the stored first line
before its first space, or a freshly generated base64url token. -/
theorem C10_saved_token_value_has_no_space (s : Sys) (fpath what0 : String)
    (me : Option String) (ro nt : Bool) :
    ' ' ∉ ((savedToken s fpath what0 me ro nt).1).data := by
  simp only [savedToken, persistToken]
  repeat' split
  all_goals
    first
    | exact pySplitSpace1_fst_no_space _
    | exact drawRandom_fst_no_space _
    | simp

/-! ### Claim C8 -/

theorem dedupKeepFirstAux_filter (p : String → Bool) :
    ∀ (l seen₁ seen₂ : List String),
      (∀ y, p y = true → seen₁.contains y = seen₂.contains y) →
      (dedupKeepFirstAux seen₁ l).filter p =
        dedupKeepFirstAux seen₂ (l.filter p) := by
  intro l
  induction l with
  | nil => intro seen₁ seen₂ _; rfl
  | cons x xs ih =>
      intro seen₁ seen₂ h
      by_cases hx : p x = true
      · by_cases hseen : seen₁.contains x = true
        · have hseen₂ : seen₂.contains x = true := (h x hx) ▸ hseen
          simp only [dedupKeepFirstAux, hseen, if_true, List.filter_cons, hx,
            if_true, hseen₂, ih seen₁ seen₂ h]
        · have hseen₂ : seen₂.contains x = false :=
            (h x hx) ▸ (Bool.not_eq_true _).mp hseen
          have hnext : ∀ y, p y = true →
              (x :: seen₁).contains y = (x :: seen₂).contains y := by
            intro y hy
            simp only [List.contains_cons, h y hy]
          simp only [dedupKeepFirstAux, hseen, Bool.false_eq_true, if_false,
            List.filter_cons, hx, if_true, hseen₂,
            ih (x :: seen₁) (x :: seen₂) hnext]
      · have hx' : p x = false := (Bool.not_eq_true _).mp hx
        by_cases hseen : seen₁.contains x = true
        · simp only [dedupKeepFirstAux, hseen, if_true, List.filter_cons, hx',
            Bool.false_eq_true, if_false, ih seen₁ seen₂ h]
        · have hnext : ∀ y, p y = true →
              (x :: seen₁).contains y = seen₂.contains y := by
            intro y hy
            have hyx : (y == x) = false := by
              by_cases hyx' : y = x
              · exact absurd (hyx' ▸ hy) (by simp [hx'])
              · exact beq_eq_false_iff_ne.mpr hyx'
            simp only [List.contains_cons, hyx, Bool.false_or, h y hy]
          simp only [dedupKeepFirstAux, hseen, Bool.false_eq_true, if_false,
            List.filter_cons, hx', ih (x :: seen₁) seen₂ hnext]

theorem dedupKeepFirstAux_sublist :
    ∀ (l seen : List String), List.Sublist (dedupKeepFirstAux seen l) l := by
  intro l
  induction l with
  | nil => intro seen; exact List.Sublist.refl []
  | cons x xs ih =>
      intro seen
      unfold dedupKeepFirstAux
      split
      · exact (ih seen).cons x
      · exact (ih (x :: seen)).cons₂ x

theorem dedupKeepFirstAux_nodup :
    ∀ (l seen : List String), (dedupKeepFirstAux seen l).Nodup ∧
      ∀ x ∈ dedupKeepFirstAux seen l, seen.contains x = false := by
  intro l
  induction l with
  | nil => intro seen; exact ⟨List.nodup_nil, by simp [dedupKeepFirstAux]⟩
  | cons x xs ih =>
      intro seen
      unfold dedupKeepFirstAux
      split
      · exact ih seen
      next hseen =>
        obtain ⟨hnd, hmem⟩ := ih (x :: seen)
        have hx_not : x ∉ dedupKeepFirstAux (x :: seen) xs := by
          intro hx
          have := hmem x hx
          simp [List.contains_cons] at this
        refine ⟨List.nodup_cons.mpr ⟨hx_not, hnd⟩, ?_⟩
        intro y hy
        rcases List.mem_cons.mp hy with hyx | hy2
        · subst hyx
          exact (Bool.not_eq_true _).mp hseen
        · have := hmem y hy2
          simp only [List.contains_cons, Bool.or_eq_false_iff] at this
          exact this.2

/-- C8: the system-token locator equals the claim-side composition —
the raw hit sequence (environment override first, then the file hits in
search-path order, falsy reads dropped) filtered by the validation
pattern with first-occurrence deduplication; consequently every result
matches `VALID_TOKEN_RE` under Python `re.match` semantics, the result
has no duplicates, and it is an order-preserving sublist of the hit
sequence. -/
theorem C8_system_token_locator (s : Sys) (fname what : String) :
    systemTokens s fname what =
      dedupKeepFirst ((systemTokenHits s fname what).filter matchesValidToken) ∧
    (∀ v ∈ systemTokens s fname what, matchesValidToken v = true) ∧
    (systemTokens s fname what).Nodup ∧
    List.Sublist (systemTokens s fname what) (systemTokenHits s fname what) := by
  refine ⟨?_, ?_, ?_, ?_⟩
  · unfold systemTokens dedupKeepFirst
    exact dedupKeepFirstAux_filter matchesValidToken
      (systemTokenHits s fname what) [] [] (fun _ _ => rfl)
  · intro v hv
    exact List.of_mem_filter hv
  · exact List.Nodup.filter _ (dedupKeepFirstAux_nodup (systemTokenHits s fname what) []).1
  · exact (List.filter_sublist _).trans
      (dedupKeepFirstAux_sublist (systemTokenHits s fname what) [])

/-! ### Claim C9 -/

theorem dropWhile_append_all {P : Char → Bool} :
    ∀ (p l : List Char), (∀ c ∈ p, P c = true) →
      List.dropWhile P (p ++ l) = List.dropWhile P l := by
  intro p
  induction p with
  | nil => intro l _; rfl
  | cons c cs ih =>
      intro l h
      have hc : P c = true := h c (List.mem_cons_self c cs)
      simp only [List.cons_append, List.dropWhile_cons, hc, if_true]
      exact ih l (fun d hd => h d (List.mem_cons_of_mem c hd))

/-- Stripping the `'='` padding recovers exactly the data characters. -/
theorem b64urlStripEq_eq (data : List Nat) :
    b64urlStripEq data = String.mk (b64urlDataChars data) := by
  unfold b64urlStripEq
  rw [b64urlChars_eq_data_append, List.reverse_append]
  have hpad : ∀ c ∈ (b64padChars data.length).reverse, (c = '=' : Bool) = true := by
    intro c hc
    simp [mem_b64padChars data.length c (List.mem_reverse.mp hc)]
  rw [dropWhile_append_all _ _ hpad]
  cases hD : (b64urlDataChars data).reverse with
  | nil =>
      have : b64urlDataChars data = [] := by
        have := congrArg List.reverse hD
        simpa using this
      simp [this]
  | cons d ds =>
      have hd_mem : d ∈ b64urlDataChars data := by
        have : d ∈ (b64urlDataChars data).reverse := by rw [hD]; exact List.mem_cons_self d ds
        exact List.mem_reverse.mp this
      have hd : (d = '=' : Bool) = false := by
        simp only [decide_eq_false_iff_not]
        intro hh
        exact eq_char_not_mem_alphabet (hh ▸ mem_b64urlDataChars data d hd_mem)
      simp only [List.dropWhile_cons, hd, Bool.false_eq_true, if_false]
      refine congrArg String.mk ?_
      rw [← hD]
      exact List.reverse_reverse _

theorem length_hexPairsToBytes :
    ∀ cs : List Char, (hexPairsToBytes cs).length = cs.length / 2 := by
  intro cs
  induction cs using hexPairsToBytes.induct with
  | case1 a b rest ih =>
      simp only [hexPairsToBytes, List.length_cons, ih]
      omega
  | case2 cs h =>
      match cs, h with
      | [], _ => simp [hexPairsToBytes]
      | [c], _ => simp [hexPairsToBytes]
      | c1 :: c2 :: rest, h => exact (h c1 c2 rest rfl).elim

theorem uuidParse_length (t : String) (bytes : List Nat)
    (h : uuidParse t = some bytes) : bytes.length = 16 := by
  simp only [uuidParse] at h
  split at h
  next hcond =>
    have hlen := (Bool.and_eq_true _ _).mp hcond |>.1
    simp only [decide_eq_true_eq] at hlen
    have hb : bytes = hexPairsToBytes _ := (Option.some.injEq _ _).mp h |>.symm
    rw [hb, length_hexPairsToBytes, hlen]
  next => exact absurd h (by simp)

theorem b64urlStripEq_length16 (data : List Nat) (h : data.length = 16) :
    (b64urlStripEq data).length = TOKEN_LENGTH := by
  rw [b64urlStripEq_eq]
  show (b64urlDataChars data).length = TOKEN_LENGTH
  rw [length_b64urlDataChars, h]
  decide

/-- C9 counterexample: the `tokens.py` credential decoder applies *no*
expiration-vs-current-time check.  For the structurally valid bearer
`"h.p.s"` (decoded form `jwtParseValid`) whose `exp = 5` lies before the
current time `1000`, it still returns an encoded credential — while the
`api_key.py` decoder at the same time returns none. -/
theorem C9_tokens_decoder_ignores_expiry :
    jwtToTokenT jwtParseValid "h.p.s" = (some "EjRWeBI0VngSNFZ4EjRWeA", 5) ∧
    ((5 : Int) < 1000) ∧
    jwtToTokenA jwtParseValid 1000 "h.p.s" = (none, none) :=
  ⟨rfl, by decide, rfl⟩

/-- C9 (amended): for every bearer string passing the structural checks,
the `api_key.py` decoder returns none when the payload's `exp` is
earlier than the current time and otherwise returns the `sub` UUID's raw
16 bytes re-encoded as base64url with padding stripped (a 22-character
value); the `tokens.py` decoder returns that same re-encoded value
(with the raw `exp`) regardless of any current time — expiration there
is only used for sorting by the caller. -/
theorem C9_credential_decoders (p : JwtParse) (now : Int) (t : String)
    (hdr pay : Json) (e : Int) (subs : String) (bytes : List Nat)
    (hne : t ≠ "")
    (hparts : jwtPartsOk t = true)
    (hhdr : p.hdr = some hdr) (hpay : p.pay = some pay)
    (hsig : p.sigOk = true)
    (hobj : jIsObj hdr = true)
    (htyp : jGet hdr "typ" = some (Json.str "JWT"))
    (hpobj : jIsObj pay = true)
    (hexp : jGet pay "exp" = some (Json.num e))
    (hepos : 0 < e)
    (hsub : jGet pay "sub" = some (Json.str subs))
    (hsne : subs ≠ "")
    (huuid : uuidParse subs = some bytes) :
    jwtToTokenT p t = (some (b64urlStripEq bytes), e) ∧
    (e < now → jwtToTokenA p now t = (none, none)) ∧
    (¬ e < now → jwtToTokenA p now t = (some t, some (b64urlStripEq bytes))) ∧
    (b64urlStripEq bytes).length = TOKEN_LENGTH := by
  have htr : jTruthy (Json.str subs) = true := by simp [jTruthy, hsne]
  have hbytes : bytes.length = 16 := uuidParse_length subs bytes huuid
  refine ⟨?_, ?_, ?_, b64urlStripEq_length16 bytes hbytes⟩
  · simp only [jwtToTokenT, if_neg hne, hparts, Bool.not_true, Bool.false_eq_true,
      if_false, hhdr, hpay, hsig, hobj, htyp, beq_self_eq_true, hpobj,
      hexp]
    simp only [Option.some_bind, jAsInt, if_pos hepos, hsub, htr, hsne, huuid]
    simp
  · intro hlt
    simp only [jwtToTokenA, if_neg hne, hparts, Bool.not_true, Bool.false_eq_true,
      if_false, hhdr, hpay, hsig, hobj, htyp, beq_self_eq_true, hpobj, hexp]
    simp only [Option.some_bind, jAsInt, if_pos hepos, if_pos hlt]
  · intro hge
    simp only [jwtToTokenA, if_neg hne, hparts, Bool.not_true, Bool.false_eq_true,
      if_false, hhdr, hpay, hsig, hobj, htyp, beq_self_eq_true, hpobj, hexp]
    simp only [Option.some_bind, jAsInt, if_pos hepos, if_neg hge, hsub, htr,
      huuid]
    simp

/-- C9 witness: the amended statement applied at the concrete decoded
bearer `jwtParseValid` (`exp = 5`), against current times `1000` (past)
and `3` (future). -/
theorem C9_credential_decoders_witness :
    jwtPartsOk "h.p.s" = true ∧
    uuidParse "12345678-1234-5678-1234-567812345678" = some uuidBytesC9 ∧
    jwtToTokenA jwtParseValid 1000 "h.p.s" = (none, none) ∧
    jwtToTokenA jwtParseValid 3 "h.p.s" =
      (some "h.p.s", some (b64urlStripEq uuidBytesC9)) ∧
    (b64urlStripEq uuidBytesC9).length = TOKEN_LENGTH := by
  have h1 := C9_credential_decoders jwtParseValid 1000 "h.p.s"
    (Json.obj [("typ", Json.str "JWT")])
    (Json.obj [("exp", Json.num 5),
      ("sub", Json.str "12345678-1234-5678-1234-567812345678")])
    5 "12345678-1234-5678-1234-567812345678" uuidBytesC9
    (by decide) (by decide) rfl rfl rfl rfl rfl rfl rfl (by decide) rfl
    (by decide) (by decide)
  have h2 := C9_credential_decoders jwtParseValid 3 "h.p.s"
    (Json.obj [("typ", Json.str "JWT")])
    (Json.obj [("exp", Json.num 5),
      ("sub", Json.str "12345678-1234-5678-1234-567812345678")])
    5 "12345678-1234-5678-1234-567812345678" uuidBytesC9
    (by decide) (by decide) rfl rfl rfl rfl rfl rfl rfl (by decide) rfl
    (by decide) (by decide)
  exact ⟨by decide, by decide, h1.2.1 (by decide), h2.2.2.1 (by decide),
    h1.2.2.2⟩

/-! ### Claim C4 -/

/-- C4: when the must-exist guard directory is absent, the generated
value is appended to the deferred list and returned; no file is written;
a second call for the same `(path, kind)` returns the identical pending
value with the state unchanged (no fresh token is minted); and once the
guard directory exists, the exit-time flush writes exactly that value to
disk. -/
theorem C4_deferred_write_idempotent (s : Sys) (d fpath what0 : String)
    (data : List Nat) (rest : List (List Nat))
    (hd : d ≠ "")
    (hdir : s.dirs.contains d = false)
    (hfile : alistGet s.files fpath = none)
    (hdefer : s.deferred = [])
    (hrng : s.rng = data :: rest)
    (hdata : data.length = URANDOM_BYTES)
    (hwf : alistGet s.wfail fpath = none)
    (hwn : s.writeNewline = false) :
    savedToken s fpath what0 (some d) false false =
      (randomToken data,
       { s with rng := rest,
                deferred := [(some d, fpath, randomToken data, what0 ++ " token")] }) ∧
    alistGet s.files fpath = none ∧
    savedToken
      { s with rng := rest,
               deferred := [(some d, fpath, randomToken data, what0 ++ " token")] }
      fpath what0 (some d) false false =
      (randomToken data,
       { s with rng := rest,
                deferred := [(some d, fpath, randomToken data, what0 ++ " token")] }) ∧
    alistGet
      ((finalAttempt
        { s with rng := rest,
                 dirs := d :: s.dirs,
                 deferred := [(some d, fpath, randomToken data, what0 ++ " token")] }).files)
      fpath = some (randomToken data) := by
  have hdef0 : deferredExists s.deferred fpath (what0 ++ " token") = none := by
    rw [hdefer]; rfl
  have hlen : decide (("" : String).length < TOKEN_LENGTH) = true := by decide
  have hblock : mustExistBlocks { s with rng := rest } (some d) = true := by
    have hd2 : d ∉ s.dirs := by simpa using hdir
    simp [mustExistBlocks, bne_iff_ne, hd, hd2]
  refine ⟨?_, hfile, ?_, ?_⟩
  · simp only [savedToken]
    rw [readFile_absent s fpath (what0 ++ " token") true hdef0 hfile]
    simp only [Option.getD_none, pySplitSpace1_empty, hlen, Bool.false_eq_true,
      if_false, Bool.or_false, if_true, persistToken, drawRandom]
    rw [hrng]
    simp only []
    rw [writeAttempt_defer _ (some d) fpath (randomToken data) _ hblock]
    simp [hdefer, WRITE_DEFER, WRITE_FAIL]
  · have hT := randomToken_ne_empty data hdata
    have hTlen := randomToken_length data hdata
    have hdef1 : deferredExists
        [((some d : Option String), fpath, randomToken data, what0 ++ " token")]
        fpath (what0 ++ " token") = some (randomToken data) := by
      simp [deferredExists]
    simp only [savedToken]
    rw [readFile_deferred _ fpath (what0 ++ " token") (randomToken data) true hdef1 hT]
    simp only [Option.getD_some,
      pySplitSpace1_no_space (randomToken data) (randomToken_no_space data)]
    have hreg : decide ((randomToken data).length < TOKEN_LENGTH) = false := by
      rw [hTlen]; simp
    simp [hreg]
  · simp only [finalAttempt, finalAttemptGo]
    have hblock2 : mustExistBlocks
        { s with rng := rest, dirs := d :: s.dirs,
                 deferred := [(some d, fpath, randomToken data, what0 ++ " token")] }
        (some d) = false := by
      simp [mustExistBlocks, List.contains_cons]
    rw [writeAttempt_ok _ (some d) fpath (randomToken data) hblock2 hwf hwn]
    simp only [finalAttemptGo]
    exact alistGet_set_self _ fpath (randomToken data)

/-- C4 witness: the concrete environment-token scenario with the guard
directory `/env` absent. -/
theorem C4_deferred_write_idempotent_witness :
    (savedToken { wSys with rng := [List.replicate 17 5] }
        "/env/etc/aau_token" "environment" (some "/env") false false).1 =
      randomToken (List.replicate 17 5) ∧
    (savedToken { wSys with rng := [List.replicate 17 5] }
        "/env/etc/aau_token" "environment" (some "/env") false false).2.deferred =
      [(some "/env", "/env/etc/aau_token", randomToken (List.replicate 17 5),
        "environment token")] := by
  have h := C4_deferred_write_idempotent { wSys with rng := [List.replicate 17 5] }
    "/env" "/env/etc/aau_token" "environment" (List.replicate 17 5) []
    (by decide) rfl rfl rfl rfl (by decide) rfl rfl
  refine ⟨?_, ?_⟩
  · rw [h.1]
  · rw [h.1]
    rfl


/-- C6 (amended): (i) every freshly generated token has exactly
`TOKEN_LENGTH = 22` base64url characters with no padding character, and
the source draws `URANDOM_BYTES = 17` bytes, enough for all 22
characters (`17·8 ≥ 22·6`); (ii) a saved-token read (without node-tie)
returns unchanged the portion of the stored first non-blank line
*before its first space* whenever that portion has at least 22
characters, leaving the state untouched; (iii) a shorter stored portion
is replaced by a newly generated, full-length (hence strictly longer)
token, written back to the file. -/
theorem C6_token_length_and_regeneration :
    (∀ data : List Nat, data.length = URANDOM_BYTES →
      (randomToken data).length = TOKEN_LENGTH ∧
      (∀ c ∈ (randomToken data).data, c ∈ B64_ALPHABET) ∧
      '=' ∉ (randomToken data).data ∧
      URANDOM_BYTES * 8 ≥ TOKEN_LENGTH * 6) ∧
    (∀ (s : Sys) (fpath what0 content : String),
      deferredExists s.deferred fpath (what0 ++ " token") = none →
      s.readChaos = "" →
      alistGet s.files fpath = some content →
      s.rfail.contains fpath = false →
      TOKEN_LENGTH ≤ ((pySplitSpace1 (pyFirstLine (pyStrip content))).1).length →
      savedToken s fpath what0 none false false =
        ((pySplitSpace1 (pyFirstLine (pyStrip content))).1, s)) ∧
    (∀ (s : Sys) (fpath what0 content : String) (data : List Nat)
        (rest : List (List Nat)),
      deferredExists s.deferred fpath (what0 ++ " token") = none →
      s.readChaos = "" →
      s.writeChaos = "" →
      alistGet s.files fpath = some content →
      s.rfail.contains fpath = false →
      alistGet s.wfail fpath = none →
      s.writeNewline = false →
      s.rng = data :: rest →
      data.length = URANDOM_BYTES →
      (pySplitSpace1 (pyFirstLine (pyStrip content))).1 ≠ "" →
      ((pySplitSpace1 (pyFirstLine (pyStrip content))).1).length < TOKEN_LENGTH →
      savedToken s fpath what0 none false false =
        (randomToken data,
         { s with rng := rest,
                  files := alistSet s.files fpath (randomToken data),
                  dirs := dirname fpath :: s.dirs }) ∧
      ((pySplitSpace1 (pyFirstLine (pyStrip content))).1).length <
        (randomToken data).length) := by
  refine ⟨?_, ?_, ?_⟩
  · intro data hdata
    exact ⟨randomToken_length data hdata, randomToken_alphabet data hdata,
      randomToken_no_pad data hdata, by decide⟩
  · intro s fpath what0 content hdef hchaos hfile hrfail hlen
    have hch : chaosHit s.readChaos (what0 ++ " token") = false := by
      rw [hchaos]; exact chaosHit_empty _
    have hreg : decide (((pySplitSpace1 (pyFirstLine (pyStrip content))).1).length <
        TOKEN_LENGTH) = false := decide_eq_false (Nat.not_lt.mpr hlen)
    simp only [savedToken]
    rw [readFile_file s fpath (what0 ++ " token") content hdef hch hfile hrfail]
    simp only [Option.getD_some, hreg, Bool.false_eq_true, if_false,
      Bool.or_false]
  · intro s fpath what0 content data rest hdef hchaosR hchaosW hfile hrfail hwf
      hwn hrng hdata hne hshort
    have hch : chaosHit s.readChaos (what0 ++ " token") = false := by
      rw [hchaosR]; exact chaosHit_empty _
    have hchW : chaosHit s.writeChaos (what0 ++ " token") = false := by
      rw [hchaosW]; exact chaosHit_empty _
    have hreg : decide (((pySplitSpace1 (pyFirstLine (pyStrip content))).1).length <
        TOKEN_LENGTH) = true := decide_eq_true hshort
    have hwf2 : alistGet (Sys.wfail { s with rng := rest }) fpath = none := hwf
    have hwn2 : Sys.writeNewline { s with rng := rest } = false := hwn
    have hblock : mustExistBlocks { s with rng := rest } none = false := rfl
    constructor
    · simp only [savedToken]
      rw [readFile_file s fpath (what0 ++ " token") content hdef hch hfile hrfail,
        hchW]
      simp only [Option.getD_some, hreg, Bool.false_eq_true, if_false,
        Bool.or_false, Bool.true_or, if_true, persistToken, drawRandom]
      rw [hrng]
      simp only []
      rw [writeAttempt_ok _ none fpath (randomToken data) hblock hwf2 hwn2]
      simp [WRITE_SUCCESS, WRITE_FAIL, WRITE_DEFER]
    · rw [randomToken_length data hdata]
      exact hshort

/-- C6 witness: the amended statement applied at a 17-byte draw, at a
22-character stored token, and at a 3-character stored token. -/
theorem C6_token_length_and_regeneration_witness :
    (randomToken (List.replicate 17 0)).length = TOKEN_LENGTH ∧
    savedToken wSysC6read "/e/aau_token" "environment" none false false =
      ("cccccccccccccccccccccc", wSysC6read) ∧
    savedToken wSysC6short "/e/aau_token" "environment" none false false =
      (randomToken (List.replicate 17 1),
       { wSysC6short with
          rng := [],
          files := alistSet wSysC6short.files "/e/aau_token"
            (randomToken (List.replicate 17 1)),
          dirs := dirname "/e/aau_token" :: wSysC6short.dirs }) := by
  refine ⟨(C6_token_length_and_regeneration.1 (List.replicate 17 0) (by decide)).1,
    ?_, ?_⟩
  · exact C6_token_length_and_regeneration.2.1 wSysC6read "/e/aau_token"
      "environment" "cccccccccccccccccccccc" rfl rfl rfl rfl (by decide)
  · exact (C6_token_length_and_regeneration.2.2 wSysC6short "/e/aau_token"
      "environment" "abc" (List.replicate 17 1) [] rfl rfl rfl rfl rfl rfl rfl
      rfl (by decide) (by decide) (by decide)).1

/-! ### Claim C7 -/

/-- C7 counterexample: with the sidecar absent and the token file in the
older inline `token + id` format, the token part is *not* kept when the
inline id (`"xyz"`) differs from the current machine's id
(`"AQAAAAAA"`): the call regenerates, and the sidecar is written with
the *current* id, not the recorded one. -/
theorem C7_inline_foreign_id_not_kept :
    (savedToken sysForeignInline "/h/aau_token" "client" none false true).1 =
      "AAAAAAAAAAAAAAAAAAAAAA" ∧
    ("AAAAAAAAAAAAAAAAAAAAAA" : String) ≠ "BBBBBBBBBBBBBBBBBBBBBB" ∧
    alistGet sysForeignInline.files "/h/aau_token" =
      some "BBBBBBBBBBBBBBBBBBBBBB xyz" ∧
    alistGet
      ((savedToken sysForeignInline "/h/aau_token" "client" none false true).2).files
      "/h/aau_token_host" = some "AQAAAAAA" ∧
    ("AQAAAAAA" : String) ≠ "xyz" :=
  ⟨rfl, by decide, rfl, rfl, by decide⟩

theorem nodeTieCheck_mismatch (s : Sys) (fpath sn cn : String)
    (xtra : Option String)
    (hcn : getNodeStr s = some cn)
    (hreadN : readFile s (fpath ++ "_host") "Host id" true = some sn)
    (hsnne : sn ≠ "") (hmis : sn ≠ cn)
    (hwfN : alistGet s.wfail (fpath ++ "_host") = none)
    (hwn : s.writeNewline = false) :
    nodeTieCheck s fpath false xtra =
      (true, false,
       { s with files := alistSet s.files (fpath ++ "_host") cn,
                dirs := dirname (fpath ++ "_host") :: s.dirs }) := by
  have hopt : optFalsy (some sn) = false := by simp [optFalsy, hsnne]
  have hsome : (some sn ≠ some cn) := by simpa using hmis
  have hpy : pyNeStrOpt sn (some cn) = true := by
    simp [pyNeStrOpt, bne_iff_ne, hmis]
  simp only [nodeTieCheck, hcn, hreadN, Option.getD_some, if_pos hsnne,
    Bool.false_or, hopt, Bool.false_eq_true, if_false, if_pos hsome, hpy,
    if_true, Option.getD_some]
  rw [writeAttempt_ok s none (fpath ++ "_host") cn rfl hwfN hwn]
  simp [WRITE_DEFER, WRITE_SUCCESS]

theorem nodeTieCheck_migrate (s : Sys) (fpath cn : String)
    (hcn : getNodeStr s = some cn)
    (hreadN : readFile s (fpath ++ "_host") "Host id" true = none)
    (hcnne : cn ≠ "")
    (hwfN : alistGet s.wfail (fpath ++ "_host") = none)
    (hwn : s.writeNewline = false) :
    nodeTieCheck s fpath false (some cn) =
      (false, true,
       { s with files := alistSet s.files (fpath ++ "_host") cn,
                dirs := dirname (fpath ++ "_host") :: s.dirs }) := by
  have hopt : optFalsy (some cn) = false := by simp [optFalsy, hcnne]
  have heq : ¬ ((some cn : Option String) ≠ some cn) := by simp
  have hpy : pyNeStrOpt "" (some cn) = true := by
    simp [pyNeStrOpt, bne_iff_ne]
    exact fun h => hcnne h.symm
  simp only [nodeTieCheck, hcn, hreadN, Option.getD_none, Option.getD_some,
    ne_eq, not_true_eq_false, if_false, Bool.false_or, hopt,
    Bool.false_eq_true, if_neg heq, Option.isSome_some, if_true, hpy]
  rw [writeAttempt_ok s none (fpath ++ "_host") cn rfl hwfN hwn]
  simp [WRITE_DEFER, WRITE_SUCCESS]

/-- C7 (amended): with node-tie enabled, (a) a sidecar recording an id
different from the current machine's invalidates the stored token: a
freshly generated token (different from the one on disk, for any draw
that differs) is returned and written, and a sidecar holding the
*current* machine's id is written; (b) with the sidecar absent and the
token file in the older inline `token + id` format, the token part is
kept **only when the inline id equals the current machine's id** — it
is then rewritten without the id, and the id is written into a separate
sidecar (an inline id differing from the current machine's triggers
regeneration instead, as the counterexample shows). -/
theorem C7_host_id_tie (s : Sys) :
    (∀ (fpath what0 stored sn cn : String) (data : List Nat)
        (rest : List (List Nat)),
      deferredExists s.deferred fpath (what0 ++ " token") = none →
      s.readChaos = "" → s.writeChaos = "" → s.writeNewline = false →
      alistGet s.files fpath = some stored →
      s.rfail.contains fpath = false →
      pyFirstLine (pyStrip stored) = stored →
      ' ' ∉ stored.data →
      TOKEN_LENGTH ≤ stored.length →
      getNodeStr s = some cn →
      readFile s (fpath ++ "_host") "Host id" true = some sn →
      sn ≠ "" → sn ≠ cn →
      alistGet s.wfail (fpath ++ "_host") = none →
      alistGet s.wfail fpath = none →
      s.rng = data :: rest →
      randomToken data ≠ stored →
      savedToken s fpath what0 none false true =
        (randomToken data,
         { s with
            rng := rest,
            files := alistSet (alistSet s.files (fpath ++ "_host") cn) fpath
              (randomToken data),
            dirs := dirname fpath :: dirname (fpath ++ "_host") :: s.dirs }) ∧
      (savedToken s fpath what0 none false true).1 ≠ stored ∧
      alistGet (savedToken s fpath what0 none false true).2.files
        (fpath ++ "_host") = some cn) ∧
    (∀ (fpath what0 tok cn : String),
      deferredExists s.deferred fpath (what0 ++ " token") = none →
      s.readChaos = "" → s.writeChaos = "" → s.writeNewline = false →
      alistGet s.files fpath = some (tok ++ " " ++ cn) →
      s.rfail.contains fpath = false →
      pyFirstLine (pyStrip (tok ++ " " ++ cn)) = tok ++ " " ++ cn →
      ' ' ∉ tok.data →
      TOKEN_LENGTH ≤ tok.length →
      getNodeStr s = some cn →
      readFile s (fpath ++ "_host") "Host id" true = none →
      cn ≠ "" →
      alistGet s.wfail (fpath ++ "_host") = none →
      alistGet s.wfail fpath = none →
      savedToken s fpath what0 none false true =
        (tok,
         { s with
            files := alistSet (alistSet s.files (fpath ++ "_host") cn) fpath tok,
            dirs := dirname fpath :: dirname (fpath ++ "_host") :: s.dirs }) ∧
      alistGet (savedToken s fpath what0 none false true).2.files
        (fpath ++ "_host") = some cn ∧
      alistGet (savedToken s fpath what0 none false true).2.files fpath
        = some tok) := by
  constructor
  · intro fpath what0 stored sn cn data rest hdefT hchR hchW hwn hfileT hrfT
      hline hnospace hlenS hcn hreadN hsnne hmis hwfN hwfT hrng hfresh
    have hch : chaosHit s.readChaos (what0 ++ " token") = false := by
      rw [hchR]; exact chaosHit_empty _
    have hchW2 : chaosHit s.writeChaos (what0 ++ " token") = false := by
      rw [hchW]; exact chaosHit_empty _
    have hreg : decide (stored.length < TOKEN_LENGTH) = false :=
      decide_eq_false (Nat.not_lt.mpr hlenS)
    have hmain : savedToken s fpath what0 none false true =
        (randomToken data,
         { s with
            rng := rest,
            files := alistSet (alistSet s.files (fpath ++ "_host") cn) fpath
              (randomToken data),
            dirs := dirname fpath :: dirname (fpath ++ "_host") :: s.dirs }) := by
      simp only [savedToken]
      rw [readFile_file s fpath (what0 ++ " token") stored hdefT hch hfileT hrfT,
        hline]
      simp only [Option.getD_some, pySplitSpace1_no_space stored hnospace]
      simp only [hreg]
      rw [nodeTieCheck_mismatch s fpath sn cn none hcn hreadN hsnne hmis hwfN hwn]
      simp only [hchW2, Bool.true_or, if_true, Bool.false_eq_true, if_false,
        persistToken, drawRandom]
      rw [hrng]
      simp only []
      rw [writeAttempt_ok
        { s with files := alistSet s.files (fpath ++ "_host") cn,
                 dirs := dirname (fpath ++ "_host") :: s.dirs,
                 rng := rest }
        none fpath (randomToken data) rfl hwfT hwn]
      simp [WRITE_SUCCESS, WRITE_FAIL, WRITE_DEFER]
    refine ⟨hmain, ?_, ?_⟩
    · rw [hmain]; exact hfresh
    · rw [hmain]
      show alistGet (alistSet (alistSet s.files (fpath ++ "_host") cn) fpath
        (randomToken data)) (fpath ++ "_host") = some cn
      rw [alistGet_set_ne _ fpath (fpath ++ "_host") _
        (strNe_append_ne_empty fpath "_host" (by decide))]
      exact alistGet_set_self _ (fpath ++ "_host") cn
  · intro fpath what0 tok cn hdefT hchR hchW hwn hfileT hrfT hline hnospace
      hlenT hcn hreadN hcnne hwfN hwfT
    have hch : chaosHit s.readChaos (what0 ++ " token") = false := by
      rw [hchR]; exact chaosHit_empty _
    have hchW2 : chaosHit s.writeChaos (what0 ++ " token") = false := by
      rw [hchW]; exact chaosHit_empty _
    have hreg : decide (tok.length < TOKEN_LENGTH) = false :=
      decide_eq_false (Nat.not_lt.mpr hlenT)
    have hmain : savedToken s fpath what0 none false true =
        (tok,
         { s with
            files := alistSet (alistSet s.files (fpath ++ "_host") cn) fpath tok,
            dirs := dirname fpath :: dirname (fpath ++ "_host") :: s.dirs }) := by
      simp only [savedToken]
      rw [readFile_file s fpath (what0 ++ " token") (tok ++ " " ++ cn) hdefT hch
        hfileT hrfT, hline]
      simp only [Option.getD_some, pySplitSpace1_append tok cn hnospace]
      simp only [hreg]
      rw [nodeTieCheck_migrate s fpath cn hcn hreadN hcnne hwfN hwn]
      simp only [hchW2, Bool.or_true, if_true, Bool.false_eq_true, if_false,
        persistToken]
      rw [writeAttempt_ok
        { s with files := alistSet s.files (fpath ++ "_host") cn,
                 dirs := dirname (fpath ++ "_host") :: s.dirs }
        none fpath tok rfl hwfT hwn]
      simp [WRITE_SUCCESS, WRITE_FAIL, WRITE_DEFER]
    refine ⟨hmain, ?_, ?_⟩
    · rw [hmain]
      show alistGet (alistSet (alistSet s.files (fpath ++ "_host") cn) fpath tok)
        (fpath ++ "_host") = some cn
      rw [alistGet_set_ne _ fpath (fpath ++ "_host") _
        (strNe_append_ne_empty fpath "_host" (by decide))]
      exact alistGet_set_self _ (fpath ++ "_host") cn
    · rw [hmain]
      exact alistGet_set_self _ fpath tok

/-- C7 witness: scenario (a) at a foreign sidecar id (`"zz"` vs current
`"AQAAAAAA"`), scenario (b) at an inline id equal to the current
machine's. -/
theorem C7_host_id_tie_witness :
    (savedToken wSysC7a "/h/aau_token" "client" none false true).1 =
      randomToken (List.replicate 17 0) ∧
    (savedToken wSysC7a "/h/aau_token" "client" none false true).1 ≠
      "dddddddddddddddddddddd" ∧
    alistGet (savedToken wSysC7a "/h/aau_token" "client" none false true).2.files
      "/h/aau_token_host" = some "AQAAAAAA" ∧
    alistGet (savedToken wSysC7b "/h/aau_token" "client" none false true).2.files
      "/h/aau_token" = some "eeeeeeeeeeeeeeeeeeeeee" ∧
    alistGet (savedToken wSysC7b "/h/aau_token" "client" none false true).2.files
      "/h/aau_token_host" = some "AQAAAAAA" := by
  have ha := (C7_host_id_tie wSysC7a).1 "/h/aau_token" "client"
    "dddddddddddddddddddddd" "zz" "AQAAAAAA" (List.replicate 17 0) []
    rfl rfl rfl rfl rfl rfl (by decide) (by decide) (by decide) rfl rfl
    (by decide) (by decide) rfl rfl rfl (by decide)
  have hb := (C7_host_id_tie wSysC7b).2 "/h/aau_token" "client"
    "eeeeeeeeeeeeeeeeeeeeee" "AQAAAAAA"
    rfl rfl rfl rfl (by decide) rfl (by decide) (by decide) (by decide)
    rfl rfl (by decide) rfl rfl
  exact ⟨by rw [ha.1], ha.2.1, ha.2.2, hb.2.2, hb.2.1⟩
